import Mathlib

/-!
Verification development for the zkmultisig-node census builder
(package censusbuilder) and its vote-package store (package db).

The Go code is shallowly embedded: the key-value control store
(go.vocdoni.io/dvote/db.Database) is a list of key/value pairs, machine
integers are natural numbers reduced modulo 2 ^ 64 exactly where Go's
uint64 arithmetic wraps, and each fallible Go call yields a `GoResult`
distinguishing a normal return, a returned error value, and a runtime
panic.  The census package, the pebble storage engine and the babyjub
key type are external collaborators of the code under verification;
they enter the model as an explicit oracle (`CensusExt`) and as opaque
data, as described in the comments below.
-/

/-- Errors surfaced by the modelled Go code.  Go errors are values built
with fmt.Errorf; here each relevant error is a constructor carrying the
data that the corresponding format string interpolates, and `errString`
renders the message exactly as the Go code formats it. -/
inductive GoErr where
  | keyNotFound
  | storageOpen
  | censusErr (msg : String)
  | batchInvalid (count firstIndex : Nat) (firstMsg : String)
  | rootErr (msg : String)
  | constraint
deriving DecidableEq

/-- Outcome of a Go call: a normal return value, a returned error, or a
runtime panic (a crash, not an error return). -/
inductive GoResult (α : Type) where
  | ok (a : α)
  | err (e : GoErr)
  | panicked
deriving DecidableEq

/-- The key-value control store backing the CensusBuilder, modelled as an
association list from keys to byte strings (bytes are naturals < 256). -/
abbrev KV := List (String × List Nat)

/-- Read a key from the control store; `none` models the NotFound error
returned by ReadTx.Get on an absent key. -/
def kvGet : KV → String → Option (List Nat)
  | [], _ => none
  | (k, v) :: t, key => if k = key then some v else kvGet t key

/-- Write a key into the control store (WriteTx.Set followed by Commit). -/
def kvSet : KV → String → List Nat → KV
  | [], key, val => [(key, val)]
  | (k, v) :: t, key, val => if k = key then (key, val) :: t else (k, v) :: kvSet t key val

/-- The well-known key of the durable counter (var dbKeyNextCensusID). -/
def dbKeyNextCensusID : String := "nextCensusID"

/-- binary.LittleEndian.PutUint64 into a fresh 8-byte buffer: byte i of
the encoding is bits 8i..8i+7 of the value, so only n mod 2 ^ 64 matters. -/
def putUint64LE (n : Nat) : List Nat := (List.range 8).map fun i => n >>> (8 * i) % 256

/-- binary.LittleEndian.Uint64 on a buffer of length at least 8: the value
of the first 8 bytes, least significant first.  (On shorter buffers the Go
function panics; that case is handled at the call site, in
`getNextCensusID`.) -/
def leVal (b : List Nat) : Nat := (b.take 8).foldr (fun x acc => acc * 256 + x) 0

/-- In-memory state of one census handle (*census.Census).  The census
package itself is an external collaborator; the model keeps only what the
claims observe: the durably stored status string and the closed flag. -/
structure CensusH where
  status : Option String
  closed : Bool
deriving DecidableEq

/-- Abstract token standing for one babyjub.PublicKey (never inspected by
the code under verification). -/
abbrev PubKey := Nat

/-- One rejected key as reported by census.AddPublicKeys: its index in the
batch and the reason, matching the fields invalids[i].Index and
invalids[i].Error used by the Go code. -/
structure Invalid where
  Index : Nat
  Error : String
deriving DecidableEq

/-- Oracle for the external collaborators: whether opening the per-census
storage (pebbledb.New followed by census.New) succeeds, and the results
returned by the census package's AddPublicKeys, SetStatus, Close and Root
methods.  Quantifying theorems over this oracle quantifies over every
behaviour of the collaborators. -/
structure CensusExt where
  openOk : Nat → Bool
  addPubKeysRes : Nat → List PubKey → List Invalid × Option String
  setStatusRes : Nat → String → Option String
  closeRes : Nat → Option String
  rootRes : Nat → Except String (List Nat)

/-- CensusBuilder state.  `censuses` maps a censusID to a pointer (an
index into `heap`), mirroring Go's map[uint64]*census.Census: map entries
are pointers, so mutating a census through its pointer leaves the map
entry itself unchanged.  `heap` gives each pointer its census state, and
`opensLog` records, in order, the storage path of every storage open
performed by loadCensusIfNotYet. -/
structure CensusBuilder where
  subDBsPath : String
  db : KV
  censuses : List (Nat × Nat)
  heap : List (Nat × CensusH)
  opensLog : List String
deriving DecidableEq

/-- First-match association lookup, modelling Go map indexing. -/
def lookupC {α : Type} : List (Nat × α) → Nat → Option α
  | [], _ => none
  | (k, v) :: t, id => if k = id then some v else lookupC t id

/-- Update the census object at a pointer, leaving the map from censusIDs
to pointers untouched (mutation through a Go pointer). -/
def heapUpdate (heap : List (Nat × CensusH)) (ptr : Nat) (f : CensusH → CensusH) :
    List (Nat × CensusH) :=
  heap.map fun p => if p.1 = ptr then (p.1, f p.2) else p

/-- Decimal digit characters of n, most significant first (helper for
strconv.Itoa).  The first argument is recursion fuel; it is consumed
strictly faster than the value, so `natDigits` below always supplies
enough. -/
def natDigitsAux : Nat → Nat → List Char
  | 0, _ => []
  | fuel + 1, n => if n < 10 then [Nat.digitChar n] else natDigitsAux fuel (n / 10) ++ [Nat.digitChar (n % 10)]

/-- Decimal digit characters of a natural number, most significant first. -/
def natDigits (n : Nat) : List Char := natDigitsAux (n + 1) n

/-- Go's int(x) conversion from uint64 to the 64-bit signed int of the
target platform: two's-complement reinterpretation. -/
def i64OfUint64 (n : Nat) : Int := if n < 2 ^ 63 then (n : Int) else (n : Int) - 2 ^ 64

/-- strconv.Itoa: decimal representation of a signed integer, with a
leading minus sign when negative. -/
def goItoa (i : Int) : String :=
  if i < 0 then String.mk ('-' :: natDigits (-i).toNat) else String.mk (natDigits i.toNat)

/-- filepath.Join for a clean directory path and a separator-free
component: concatenation with one path separator. -/
def goPathJoin (dir nm : String) : String := dir ++ "/" ++ nm

/-- The storage path opened for a censusID:
filepath.Join(cb.subDBsPath, strconv.Itoa(int(censusID))). -/
def censusPath (subDBsPath : String) (censusID : Nat) : String :=
  goPathJoin subDBsPath (goItoa (i64OfUint64 censusID))

/-- Follows the spec's words (refinement reference, not the code): the
tenant storage location is the tenant root directory joined with the
decimal string representation of the unsigned identifier. -/
def specTenantPath (rootDir : String) (tenantID : Nat) : String :=
  goPathJoin rootDir (String.mk (natDigits tenantID))

/-- (cb *CensusBuilder) setNextCensusID: encode the counter into a fresh
8-byte little-endian buffer and Set it under dbKeyNextCensusID. -/
def setNextCensusID (wTx : KV) (nextCensusID : Nat) : KV :=
  kvSet wTx dbKeyNextCensusID (putUint64LE nextCensusID)

/-- (cb *CensusBuilder) getNextCensusID: Get the stored counter value and
decode it with binary.LittleEndian.Uint64.  An absent key is the Get
error; a present value shorter than 8 bytes makes Uint64 panic. -/
def getNextCensusID (rTx : KV) : GoResult Nat :=
  match kvGet rTx dbKeyNextCensusID with
  | none => .err .keyNotFound
  | some b => if b.length < 8 then .panicked else .ok (leVal b)

/-- censusbuilder.New: build the CensusBuilder with an empty census map;
if reading the counter fails, initialize it to 0, otherwise write nothing;
then commit. -/
def New (database : KV) (subDBsPath : String) : GoResult CensusBuilder :=
  let cb : CensusBuilder := ⟨subDBsPath, database, [], [], []⟩
  match getNextCensusID cb.db with
  | .ok _ => .ok cb
  | .err _ => .ok { cb with db := setNextCensusID cb.db 0 }
  | .panicked => .panicked

/-- (cb *CensusBuilder) loadCensusIfNotYet: if the censusID is not in the
map, open its storage at censusPath and construct the census (recording
the open in `opensLog` and allocating a fresh pointer), then cache it;
if it is already cached, do nothing. -/
def loadCensusIfNotYet (ext : CensusExt) (censusID : Nat) (cb : CensusBuilder) :
    GoResult Unit × CensusBuilder :=
  match lookupC cb.censuses censusID with
  | some _ => (.ok (), cb)
  | none =>
    if ext.openOk censusID then
      (.ok (), { cb with
        censuses := (censusID, cb.heap.length) :: cb.censuses,
        heap := cb.heap ++ [(cb.heap.length, ⟨none, false⟩)],
        opensLog := cb.opensLog ++ [censusPath cb.subDBsPath censusID] })
    else (.err .storageOpen, cb)

/-- (cb *CensusBuilder) NewCensus: read the counter, load the census for
that value, then store counter+1 (uint64 increment) and return the value. -/
def NewCensus (ext : CensusExt) (cb : CensusBuilder) : GoResult Nat × CensusBuilder :=
  match getNextCensusID cb.db with
  | .err e => (.err e, cb)
  | .panicked => (.panicked, cb)
  | .ok nextCensusID =>
    match loadCensusIfNotYet ext nextCensusID cb with
    | (.err e, cb1) => (.err e, cb1)
    | (.panicked, cb1) => (.panicked, cb1)
    | (.ok _, cb1) =>
      (.ok nextCensusID, { cb1 with db := setNextCensusID cb1.db (nextCensusID + 1) })

/-- (cb *CensusBuilder) CloseCensus: load, then Close the census through
its pointer (the map entry is not removed).  Indexing the map at a missing
key would yield a nil pointer and the method call would panic; that branch
is unreachable after a successful load. -/
def CloseCensus (ext : CensusExt) (censusID : Nat) (cb : CensusBuilder) :
    GoResult Unit × CensusBuilder :=
  match loadCensusIfNotYet ext censusID cb with
  | (.err e, cb1) => (.err e, cb1)
  | (.panicked, cb1) => (.panicked, cb1)
  | (.ok _, cb1) =>
    match lookupC cb1.censuses censusID with
    | none => (.panicked, cb1)
    | some ptr =>
      match ext.closeRes censusID with
      | some msg => (.err (.censusErr msg), cb1)
      | none => (.ok (), { cb1 with heap := heapUpdate cb1.heap ptr fun c => { c with closed := true } })

/-- (cb *CensusBuilder) CensusRoot: load, then read the root through the
pointer, wrapping a failure into the formatted CensusRoot error. -/
def CensusRoot (ext : CensusExt) (censusID : Nat) (cb : CensusBuilder) :
    GoResult (List Nat) × CensusBuilder :=
  match loadCensusIfNotYet ext censusID cb with
  | (.err e, cb1) => (.err e, cb1)
  | (.panicked, cb1) => (.panicked, cb1)
  | (.ok _, cb1) =>
    match lookupC cb1.censuses censusID with
    | none => (.panicked, cb1)
    | some _ =>
      match ext.rootRes censusID with
      | .error msg => (.err (.rootErr msg), cb1)
      | .ok root => (.ok root, cb1)

/-- (cb *CensusBuilder) CensusInfo: the current code is a stub that
formats a WIP placeholder mentioning only the censusID and touches no
state (the TODO in the source promises the real summary later). -/
def CensusInfo (censusID : Nat) (cb : CensusBuilder) : GoResult String × CensusBuilder :=
  (.ok ("WIP, this will return info about CensusID: " ++ Nat.repr censusID), cb)

/-- Message of an error value, as the Go code formats it (err.Error()). -/
def errString : GoErr → String
  | .keyNotFound => "Key not found"
  | .storageOpen => "error opening the census storage"
  | .censusErr msg => msg
  | .batchInvalid c i msg =>
    "CensusBuilder.AddPublicKeys error: " ++ Nat.repr c ++ " invalid keys, invalid msg for key "
      ++ Nat.repr i ++ ": " ++ msg
  | .rootErr msg => "Can not get the CensusRoot, " ++ msg
  | .constraint => "UNIQUE constraint failed"

/-- (cb *CensusBuilder) AddPublicKeys: load, submit the batch to the
census; an error from the census is returned as is; otherwise a non-empty
reject list fails with the formatted batch error carrying len(invalids),
invalids[0].Index and invalids[0].Error. -/
def AddPublicKeys (ext : CensusExt) (censusID : Nat) (pubKs : List PubKey)
    (cb : CensusBuilder) : GoResult Unit × CensusBuilder :=
  match loadCensusIfNotYet ext censusID cb with
  | (.err e, cb1) => (.err e, cb1)
  | (.panicked, cb1) => (.panicked, cb1)
  | (.ok _, cb1) =>
    match lookupC cb1.censuses censusID with
    | none => (.panicked, cb1)
    | some _ =>
      match ext.addPubKeysRes censusID pubKs with
      | (_, some msg) => (.err (.censusErr msg), cb1)
      | ([], none) => (.ok (), cb1)
      | (inv :: invs, none) =>
        (.err (.batchInvalid (inv :: invs).length inv.Index inv.Error), cb1)

/-- (cb *CensusBuilder) SetStatus: load, then store the status string
through the census pointer inside a write transaction and commit. -/
def SetStatus (ext : CensusExt) (censusID : Nat) (status : String) (cb : CensusBuilder) :
    GoResult Unit × CensusBuilder :=
  match loadCensusIfNotYet ext censusID cb with
  | (.err e, cb1) => (.err e, cb1)
  | (.panicked, cb1) => (.panicked, cb1)
  | (.ok _, cb1) =>
    match lookupC cb1.censuses censusID with
    | none => (.panicked, cb1)
    | some ptr =>
      match ext.setStatusRes censusID status with
      | some msg => (.err (.censusErr msg), cb1)
      | none => (.ok (), { cb1 with heap := heapUpdate cb1.heap ptr fun c => { c with status := some status } })

/-- (cb *CensusBuilder) AddPublicKeysAndStoreError: call AddPublicKeys;
on error, store the error message as the census status, only logging (not
returning) a secondary SetStatus failure; return nothing to the caller. -/
def AddPublicKeysAndStoreError (ext : CensusExt) (censusID : Nat) (pubKs : List PubKey)
    (cb : CensusBuilder) : GoResult Unit × CensusBuilder :=
  match AddPublicKeys ext censusID pubKs cb with
  | (.ok _, cb1) => (.ok (), cb1)
  | (.panicked, cb1) => (.panicked, cb1)
  | (.err e, cb1) =>
    match SetStatus ext censusID (errString e) cb1 with
    | (.panicked, cb2) => (.panicked, cb2)
    | (.ok _, cb2) => (.ok (), cb2)
    | (.err _, cb2) => (.ok (), cb2)

/-- The status durably stored for a censusID, read through the registry
map and the census pointer. -/
def statusOf (cb : CensusBuilder) (censusID : Nat) : Option String :=
  match lookupC cb.censuses censusID with
  | none => none
  | some ptr =>
    match lookupC cb.heap ptr with
    | none => none
    | some c => c.status

/-- Modelled from the spec: types.CensusProof, the membership proof part
of a vote package, with the fields db.go reads (Index, PublicKey,
MerkleProof); the types package is not among the provided sources. -/
structure CensusProof where
  Index : Nat
  PublicKey : List Nat
  MerkleProof : List Nat
deriving DecidableEq

/-- Modelled from the spec: types.VotePackage, a signed submission; the
signature is a fixed-size 64-byte value, the vote an opaque byte string. -/
structure VotePackage where
  Signature : List Nat
  censusProof : CensusProof
  Vote : List Nat
deriving DecidableEq

/-- One row of the votepackages table created by Migrate. -/
structure VoteRow where
  censusRoot : List Nat
  signature : List Nat
  indx : Nat
  publicKey : List Nat
  merkleproof : List Nat
  vote : List Nat
  insertedDatetime : Nat
deriving DecidableEq

/-- Contents of the SQLite database: the rows of the votepackages table
in insertion order. -/
structure SQLite where
  rows : List VoteRow
deriving DecidableEq

/-- The state produced by Migrate on a fresh database: the votepackages
table exists and is empty. -/
def migratedDB : SQLite := ⟨[]⟩

/-- The UNIQUE and PRIMARY KEY constraints of the votepackages schema:
indx, publicKey and merkleproof must each be absent from every existing
row of the whole table. -/
def violatesUnique (s : SQLite) (v : VotePackage) : Bool :=
  s.rows.any fun r =>
    r.indx = v.censusProof.Index ∨ r.publicKey = v.censusProof.PublicKey
      ∨ r.merkleproof = v.censusProof.MerkleProof

/-- (r *SQLite) StoreVotePackage: INSERT the record with the current
timestamp; a uniqueness violation makes the INSERT fail with the
constraint error and leaves the table unchanged.  The argument `t` is
the value CURRENT_TIMESTAMP has when the INSERT executes: a wall-clock
reading with one-second resolution, supplied by the environment, so two
inserts landing in the same second receive equal timestamps. -/
def StoreVotePackage (censusRoot : List Nat) (vote : VotePackage) (t : Nat) (s : SQLite) :
    GoResult Unit × SQLite :=
  if violatesUnique s vote then (.err .constraint, s)
  else
    (.ok (), ⟨s.rows ++ [⟨censusRoot, vote.Signature, vote.censusProof.Index,
      vote.censusProof.PublicKey, vote.censusProof.MerkleProof, vote.Vote, t⟩]⟩)

/-- The ORDER BY datetime(InsertedDatetime) DESC relation: a row comes
before another when its timestamp is at least as recent. -/
def timeDesc (a b : VoteRow) : Prop := b.insertedDatetime ≤ a.insertedDatetime

instance : DecidableRel timeDesc := fun a b => Nat.decLe b.insertedDatetime a.insertedDatetime

instance : IsTotal VoteRow timeDesc :=
  ⟨fun a b => Nat.le_total b.insertedDatetime a.insertedDatetime⟩

instance : IsTrans VoteRow timeDesc :=
  ⟨fun _ _ _ h1 h2 => Nat.le_trans h2 h1⟩

/-- The rows produced by the SELECT in ReadVotePackagesByCensusRoot:
WHERE censusRoot = ? then ORDER BY datetime(InsertedDatetime) DESC.
ORDER BY leaves the relative order of rows with equal timestamps
unspecified; the stable insertion sort realizes one legal execution,
returning tied rows in table scan (insertion) order. -/
def readRowsByCensusRoot (censusRoot : List Nat) (s : SQLite) : List VoteRow :=
  List.insertionSort timeDesc (s.rows.filter fun r => r.censusRoot = censusRoot)

/-- Go's copy of the scanned signature bytes into the zeroed fixed-size
64-byte Signature array: min(64, len src) bytes are copied, the rest of
the array keeps its zeros. -/
def goCopySig (src : List Nat) : List Nat :=
  src.take 64 ++ List.replicate (64 - src.length) 0

/-- Rebuild a types.VotePackage from a scanned row, as the rows.Scan loop
of ReadVotePackagesByCensusRoot does. -/
def rowToVotePackage (r : VoteRow) : VotePackage :=
  ⟨goCopySig r.signature, ⟨r.indx, r.publicKey, r.merkleproof⟩, r.vote⟩

/-- (r *SQLite) ReadVotePackagesByCensusRoot: scan every selected row in
query order into a VotePackage. -/
def ReadVotePackagesByCensusRoot (censusRoot : List Nat) (s : SQLite) : List VotePackage :=
  (readRowsByCensusRoot censusRoot s).map rowToVotePackage

/-- A lifecycle operation on the CensusBuilder, for reasoning about
arbitrary in-process operation sequences. -/
inductive Op where
  | newCensus
  | closeCensus (censusID : Nat)
  | censusRoot (censusID : Nat)
  | addPublicKeys (censusID : Nat) (pubKs : List PubKey)
  | setStatus (censusID : Nat) (status : String)

/-- Execute one lifecycle operation, keeping the resulting state. -/
def stepOp (ext : CensusExt) : Op → CensusBuilder → CensusBuilder
  | .newCensus, cb => (NewCensus ext cb).2
  | .closeCensus id, cb => (CloseCensus ext id cb).2
  | .censusRoot id, cb => (CensusRoot ext id cb).2
  | .addPublicKeys id ks, cb => (AddPublicKeys ext id ks cb).2
  | .setStatus id st, cb => (SetStatus ext id st cb).2

/-- Execute a sequence of lifecycle operations left to right. -/
def runOps (ext : CensusExt) (ops : List Op) (cb : CensusBuilder) : CensusBuilder :=
  ops.foldl (fun s op => stepOp ext op s) cb

/-- Run N sequential NewCensus calls, collecting the returned identifiers
in order; an error or panic stops the run (never reached in the theorems
below). -/
def runNewCensuses (ext : CensusExt) : Nat → CensusBuilder → List Nat × CensusBuilder
  | 0, cb => ([], cb)
  | n + 1, cb =>
    match NewCensus ext cb with
    | (.ok id, cb1) =>
      let r := runNewCensuses ext n cb1
      (id :: r.1, r.2)
    | (.err _, cb1) => ([], cb1)
    | (.panicked, cb1) => ([], cb1)

/-- Collaborator oracle in which every external call succeeds and rejects
nothing. -/
def extAllOk : CensusExt :=
  ⟨fun _ => true, fun _ _ => ([], none), fun _ _ => none, fun _ => none, fun _ => .ok []⟩

/-- A tenant root directory used for concrete runs. -/
def subP : String := "censusDBs"

/-- The CensusBuilder produced by New over a fresh (empty) control store. -/
def cbInit : CensusBuilder := ⟨subP, kvSet [] dbKeyNextCensusID (putUint64LE 0), [], [], []⟩

/-- Numeric value of a big-endian decimal digit string (left inverse of
`natDigits`, used to prove it injective). -/
def digitsVal (l : List Char) : Nat := l.foldl (fun acc c => acc * 10 + (c.toNat - 48)) 0

/-- A control store holding a malformed (1-byte) counter value. -/
def kvShort : KV := [(dbKeyNextCensusID, [0])]

/-- A control store holding the well-formed counter value 9. -/
def kvNine : KV := [(dbKeyNextCensusID, putUint64LE 9)]

/-- A reject reason used in concrete runs. -/
def badMsg : String := "invalid key"

/-- A status string used in concrete runs. -/
def stW : String := "st"

/-- Collaborator oracle whose AddPublicKeys reports exactly one rejected
key, at batch index 2, and whose other calls succeed. -/
def extRej : CensusExt :=
  ⟨fun _ => true, fun _ _ => ([⟨2, badMsg⟩], none), fun _ _ => none, fun _ => none,
    fun _ => .ok []⟩

/-- A builder state with census 7 already loaded (pointer 0). -/
def cbW : CensusBuilder := ⟨subP, [], [(7, 0)], [(0, ⟨none, false⟩)], []⟩

/-- A builder state with nothing loaded. -/
def cbEmpty : CensusBuilder := ⟨subP, [], [], [], []⟩

/-- A batch of public keys used in concrete runs. -/
def ksW : List PubKey := [0]

/-- Status strings used to exercise CensusInfo. -/
def boomStr : String := "boom"

def otherStr : String := "other status"

/-- A builder whose census 0 has stored status `boomStr`. -/
def cbBoom : CensusBuilder := ⟨subP, [], [(0, 0)], [(0, ⟨some boomStr, false⟩)], []⟩

/-- The same builder but with a different stored status for census 0. -/
def cbOther : CensusBuilder := ⟨subP, [], [(0, 0)], [(0, ⟨some otherStr, false⟩)], []⟩

/-- Concrete census root and vote packages used in concrete ledger runs. -/
def rootW : List Nat := [9]

def vp1 : VotePackage := ⟨List.replicate 64 1, ⟨0, [1], [10]⟩, [100]⟩

def vp2 : VotePackage := ⟨List.replicate 64 2, ⟨1, [2], [20]⟩, [200]⟩

def vp3 : VotePackage := ⟨List.replicate 64 3, ⟨2, [3], [30]⟩, [300]⟩

/-- A package repeating vp1's index with fresh publicKey and merkleproof. -/
def vpDup : VotePackage := ⟨List.replicate 64 4, ⟨0, [4], [40]⟩, [400]⟩

theorem kvGet_kvSet_same (kv : KV) (key : String) (val : List Nat) :
    kvGet (kvSet kv key val) key = some val := by
  induction kv with
  | nil => simp [kvSet, kvGet]
  | cons h t ih =>
    obtain ⟨k, v⟩ := h
    by_cases hk : k = key
    · simp [kvSet, kvGet, hk]
    · simp [kvSet, kvGet, hk, ih]

theorem putUint64LE_length (n : Nat) : (putUint64LE n).length = 8 := by
  simp [putUint64LE]

theorem leVal_putUint64LE (n : Nat) : leVal (putUint64LE n) = n % 2 ^ 64 := by
  simp [leVal, putUint64LE, List.range_succ, Nat.shiftRight_eq_div_pow]
  omega

theorem putUint64LE_mod (n : Nat) : putUint64LE (n % 2 ^ 64) = putUint64LE n := by
  simp only [putUint64LE]
  apply List.map_congr_left
  intro i hi
  have h8 : i < 8 := List.mem_range.mp hi
  simp only [Nat.shiftRight_eq_div_pow]
  interval_cases i <;> omega

theorem putUint64LE_succ_mod (k : Nat) : putUint64LE (k % 2 ^ 64 + 1) = putUint64LE (k + 1) := by
  rw [← putUint64LE_mod (k % 2 ^ 64 + 1), ← putUint64LE_mod (k + 1)]
  congr 1
  omega

theorem getNextCensusID_of_get (kv : KV) (b : List Nat)
    (hget : kvGet kv dbKeyNextCensusID = some b) (hlen : 8 ≤ b.length) :
    getNextCensusID kv = .ok (leVal b) := by
  simp [getNextCensusID, hget, Nat.not_lt.mpr hlen]

theorem getNextCensusID_ok_inv (kv : KV) (v : Nat) (h : getNextCensusID kv = .ok v) :
    ∃ b, kvGet kv dbKeyNextCensusID = some b ∧ 8 ≤ b.length ∧ v = leVal b := by
  unfold getNextCensusID at h
  cases hg : kvGet kv dbKeyNextCensusID with
  | none => rw [hg] at h; exact absurd h (by simp)
  | some b =>
    rw [hg] at h
    by_cases hl : b.length < 8
    · simp [hl] at h
    · simp [hl] at h
      exact ⟨b, rfl, by omega, h.symm⟩

theorem New_noop (kv : KV) (sub : String) (b : List Nat)
    (hget : kvGet kv dbKeyNextCensusID = some b) (hlen : 8 ≤ b.length) :
    New kv sub = .ok ⟨sub, kv, [], [], []⟩ := by
  rw [New]
  rw [getNextCensusID_of_get kv b hget hlen]

theorem New_ok_counter (kv0 : KV) (sub : String) (cb' : CensusBuilder)
    (hN : New kv0 sub = .ok cb') :
    ∃ b', kvGet cb'.db dbKeyNextCensusID = some b' ∧ 8 ≤ b'.length := by
  rw [New] at hN
  cases hg : getNextCensusID kv0 with
  | ok v =>
    rw [hg] at hN
    simp only [GoResult.ok.injEq] at hN
    obtain ⟨b, hb, hl, -⟩ := getNextCensusID_ok_inv kv0 v hg
    exact ⟨b, by rw [← hN]; exact hb, hl⟩
  | err e =>
    rw [hg] at hN
    simp only [GoResult.ok.injEq] at hN
    refine ⟨putUint64LE 0, ?_, by rw [putUint64LE_length]⟩
    rw [← hN]
    exact kvGet_kvSet_same kv0 dbKeyNextCensusID (putUint64LE 0)
  | panicked => rw [hg] at hN; exact absurd hN (by simp)

theorem load_not_err_of_allOk (id : Nat) (cb : CensusBuilder) :
    (loadCensusIfNotYet extAllOk id cb).1 = .ok () := by
  unfold loadCensusIfNotYet
  cases lookupC cb.censuses id <;> simp [extAllOk]

theorem load_db (ext : CensusExt) (id : Nat) (cb : CensusBuilder) :
    ((loadCensusIfNotYet ext id cb).2).db = cb.db := by
  unfold loadCensusIfNotYet
  cases lookupC cb.censuses id with
  | some p => rfl
  | none =>
    by_cases h : ext.openOk id = true
    · simp [h]
    · simp [h]

theorem load_subDBsPath (ext : CensusExt) (id : Nat) (cb : CensusBuilder) :
    ((loadCensusIfNotYet ext id cb).2).subDBsPath = cb.subDBsPath := by
  unfold loadCensusIfNotYet
  cases lookupC cb.censuses id with
  | some p => rfl
  | none =>
    by_cases h : ext.openOk id = true
    · simp [h]
    · simp [h]

theorem NewCensus_step (k : Nat) (cb : CensusBuilder)
    (h : kvGet cb.db dbKeyNextCensusID = some (putUint64LE k)) :
    (NewCensus extAllOk cb).1 = .ok (k % 2 ^ 64) ∧
    kvGet ((NewCensus extAllOk cb).2).db dbKeyNextCensusID = some (putUint64LE (k + 1)) := by
  have hg : getNextCensusID cb.db = .ok (k % 2 ^ 64) := by
    rw [getNextCensusID_of_get cb.db (putUint64LE k) h (by rw [putUint64LE_length])]
    rw [leVal_putUint64LE]
  cases hL : loadCensusIfNotYet extAllOk (k % 2 ^ 64) cb with
  | mk r cb1 =>
    have hr : r = .ok () := by
      have hx := load_not_err_of_allOk (k % 2 ^ 64) cb
      rw [hL] at hx
      exact hx
    subst hr
    constructor
    · simp only [NewCensus, hg, hL]
    · simp only [NewCensus, hg, hL, setNextCensusID]
      rw [kvGet_kvSet_same, putUint64LE_succ_mod]

theorem runNewCensuses_spec (N : Nat) : ∀ (k : Nat) (cb : CensusBuilder),
    kvGet cb.db dbKeyNextCensusID = some (putUint64LE k) →
    (runNewCensuses extAllOk N cb).1 = (List.range' k N).map (fun i => i % 2 ^ 64) ∧
    kvGet ((runNewCensuses extAllOk N cb).2).db dbKeyNextCensusID = some (putUint64LE (k + N)) := by
  induction N with
  | zero =>
    intro k cb h
    exact ⟨rfl, h⟩
  | succ n ih =>
    intro k cb h
    obtain ⟨h1, h2⟩ := NewCensus_step k cb h
    cases hN : NewCensus extAllOk cb with
    | mk r cb1 =>
      rw [hN] at h1 h2
      dsimp only at h1 h2
      subst h1
      obtain ⟨ih1, ih2⟩ := ih (k + 1) cb1 h2
      refine ⟨?_, ?_⟩
      · simp [runNewCensuses, hN, ih1, List.range'_succ]
      · simp only [runNewCensuses, hN]
        rw [show k + (n + 1) = k + 1 + n by omega]
        exact ih2

theorem cbInit_counter : kvGet cbInit.db dbKeyNextCensusID = some (putUint64LE 0) :=
  kvGet_kvSet_same [] dbKeyNextCensusID (putUint64LE 0)

/-- C1 (amended): for every N with 1 <= N <= 2^64, N sequential NewCensus
calls from a freshly initialized control store return exactly the
identifiers 0, 1, ..., N-1 in order; after creating identifiers 0..4,
constructing a new CensusBuilder over the same persisted store writes
nothing, and one more NewCensus yields identifier 5 with the persisted
counter equal to 5 + 1.  (The bound N <= 2^64 is forced by uint64
wraparound of the counter; see the counterexample.) -/
theorem claim1_sequential_ids (N : Nat) (h1 : 1 ≤ N) (h2 : N ≤ 2 ^ 64) :
    New [] subP = .ok cbInit ∧
    (runNewCensuses extAllOk N cbInit).1 = List.range N ∧
    New ((runNewCensuses extAllOk 5 cbInit).2).db subP =
      .ok ⟨subP, ((runNewCensuses extAllOk 5 cbInit).2).db, [], [], []⟩ ∧
    (NewCensus extAllOk ⟨subP, ((runNewCensuses extAllOk 5 cbInit).2).db, [], [], []⟩).1 =
      .ok 5 ∧
    kvGet ((NewCensus extAllOk
        ⟨subP, ((runNewCensuses extAllOk 5 cbInit).2).db, [], [], []⟩).2).db
      dbKeyNextCensusID = some (putUint64LE (5 + 1)) := by
  have hc5 := (runNewCensuses_spec 5 0 cbInit cbInit_counter).2
  rw [show (0 : Nat) + 5 = 5 by omega] at hc5
  have hR : kvGet (CensusBuilder.mk subP ((runNewCensuses extAllOk 5 cbInit).2).db
      [] [] []).db dbKeyNextCensusID = some (putUint64LE 5) := hc5
  refine ⟨rfl, ?_, ?_, ?_, ?_⟩
  · rw [(runNewCensuses_spec N 0 cbInit cbInit_counter).1, List.range_eq_range']
    have : ∀ i ∈ List.range' 0 N, i % 2 ^ 64 = i := by
      intro i hi
      have hiN := (List.mem_range'_1.mp hi).2
      omega
    rw [List.map_congr_left this]
    simp
  · exact New_noop _ subP (putUint64LE 5) hc5 (by rw [putUint64LE_length])
  · have := (NewCensus_step 5 _ hR).1
    rw [show (5 : Nat) % 2 ^ 64 = 5 by omega] at this
    exact this
  · exact (NewCensus_step 5 _ hR).2

/-- C1 counterexample: with 2^64 + 1 sequential NewCensus calls the
uint64 counter wraps, so the returned identifiers are not 0..2^64 (the
identifier 0 is returned twice); the claim's unbounded "for every N >= 1"
fails on the code. -/
theorem claim1_cex :
    (runNewCensuses extAllOk (2 ^ 64 + 1) cbInit).1 ≠ List.range (2 ^ 64 + 1) := by
  intro hEq
  obtain ⟨hids, -⟩ := runNewCensuses_spec (2 ^ 64 + 1) 0 cbInit cbInit_counter
  rw [hids] at hEq
  have hl := congrArg (fun l => l[2 ^ 64]?) hEq
  simp only at hl
  rw [List.getElem?_map, List.getElem?_range' 0 1 (by omega), List.getElem?_range (by omega)]
    at hl
  simp only [Option.map_some'] at hl
  have : (0 + 1 * 2 ^ 64) % 2 ^ 64 = 2 ^ 64 := by
    exact Option.some.inj hl
  omega

/-- C1 witness at N = 3. -/
theorem claim1_sequential_ids_witness :
    (1 ≤ 3 ∧ 3 ≤ 2 ^ 64) ∧
    (New [] subP = .ok cbInit ∧
      (runNewCensuses extAllOk 3 cbInit).1 = List.range 3 ∧
      New ((runNewCensuses extAllOk 5 cbInit).2).db subP =
        .ok ⟨subP, ((runNewCensuses extAllOk 5 cbInit).2).db, [], [], []⟩ ∧
      (NewCensus extAllOk ⟨subP, ((runNewCensuses extAllOk 5 cbInit).2).db, [], [], []⟩).1 =
        .ok 5 ∧
      kvGet ((NewCensus extAllOk
          ⟨subP, ((runNewCensuses extAllOk 5 cbInit).2).db, [], [], []⟩).2).db
        dbKeyNextCensusID = some (putUint64LE (5 + 1))) :=
  ⟨⟨by omega, by norm_num⟩, claim1_sequential_ids 3 (by omega) (by norm_num)⟩

/-- C7: reading an already-initialized control store, the constructor New
writes nothing: it returns a fresh builder over the unchanged store, so a
second New is a no-op on the counter, and any identifier below the
counter value stays below it. -/
theorem claim7_idempotent_init (sub : String) (kv kv0 : KV) (b : List Nat)
    (cb' cb2 : CensusBuilder) (i : Nat)
    (hget : kvGet kv dbKeyNextCensusID = some b) (hlen : 8 ≤ b.length)
    (hN : New kv0 sub = .ok cb') (hN2 : New kv sub = .ok cb2) (hi : i < leVal b) :
    New kv sub = .ok ⟨sub, kv, [], [], []⟩ ∧
    New cb'.db sub = .ok ⟨sub, cb'.db, [], [], []⟩ ∧
    kvGet cb2.db dbKeyNextCensusID = some b ∧ i < leVal b := by
  have hA := New_noop kv sub b hget hlen
  obtain ⟨b', hb', hl'⟩ := New_ok_counter kv0 sub cb' hN
  have hB := New_noop cb'.db sub b' hb' hl'
  rw [hA] at hN2
  have hcb2 : (⟨sub, kv, [], [], []⟩ : CensusBuilder) = cb2 := GoResult.ok.inj hN2
  refine ⟨hA, hB, ?_, hi⟩
  rw [← hcb2]
  exact hget

/-- C7 witness: a store holding counter value 9, first initialized from an
empty store. -/
theorem claim7_idempotent_init_witness :
    (kvGet kvNine dbKeyNextCensusID = some (putUint64LE 9) ∧ 3 < leVal (putUint64LE 9)) ∧
    (New kvNine subP = .ok ⟨subP, kvNine, [], [], []⟩ ∧
      New cbInit.db subP = .ok ⟨subP, cbInit.db, [], [], []⟩ ∧
      kvGet (CensusBuilder.mk subP kvNine [] [] []).db dbKeyNextCensusID =
        some (putUint64LE 9) ∧
      3 < leVal (putUint64LE 9)) :=
  ⟨⟨by decide, by decide⟩,
    claim7_idempotent_init subP kvNine [] (putUint64LE 9) cbInit ⟨subP, kvNine, [], [], []⟩ 3
      (by decide) (by decide) (by decide) (by decide) (by decide)⟩

/-- C9 (amended): getNextCensusID returns the NotFound error when the
counter key is absent, and on a present stored value of width at least 8
returns its decoded value; but a present value of width below 8 makes it
panic (binary.LittleEndian.Uint64 indexes out of range), it does not
return an error. -/
theorem claim9_getNextCensusID_totality (kv kv2 : KV) (b : List Nat)
    (hsome : kvGet kv dbKeyNextCensusID = some b)
    (hnone : kvGet kv2 dbKeyNextCensusID = none) :
    getNextCensusID kv =
      (if b.length < 8 then GoResult.panicked else .ok (leVal b)) ∧
    getNextCensusID kv2 = .err .keyNotFound := by
  constructor
  · simp [getNextCensusID, hsome]
  · simp [getNextCensusID, hnone]

/-- C9 counterexample: on a stored 1-byte counter value the code panics
(crashes); it does not fail with an error value as the claim states. -/
theorem claim9_cex : getNextCensusID kvShort = GoResult.panicked := by decide

/-- C9 witness: a malformed short value and an empty store. -/
theorem claim9_getNextCensusID_totality_witness :
    (kvGet kvShort dbKeyNextCensusID = some [0] ∧
      kvGet ([] : KV) dbKeyNextCensusID = none) ∧
    (getNextCensusID kvShort =
        (if ([0] : List Nat).length < 8 then GoResult.panicked else .ok (leVal [0])) ∧
      getNextCensusID ([] : KV) = .err .keyNotFound) :=
  ⟨⟨by decide, by decide⟩,
    claim9_getNextCensusID_totality kvShort [] [0] (by decide) (by decide)⟩

theorem lookupC_none_not_mem {α : Type} (l : List (Nat × α)) (id : Nat)
    (h : lookupC l id = none) : id ∉ l.map Prod.fst := by
  induction l with
  | nil => simp
  | cons q t ih =>
    obtain ⟨k, v⟩ := q
    by_cases hk : k = id
    · simp [lookupC, hk] at h
    · simp only [lookupC, if_neg hk] at h
      intro hmem
      rcases List.mem_cons.mp hmem with h1 | h1
      · exact hk h1.symm
      · exact ih h h1

theorem load_censuses (ext : CensusExt) (id : Nat) (cb : CensusBuilder) :
    ((loadCensusIfNotYet ext id cb).2).censuses = cb.censuses ∨
    (lookupC cb.censuses id = none ∧
      ((loadCensusIfNotYet ext id cb).2).censuses = (id, cb.heap.length) :: cb.censuses) := by
  unfold loadCensusIfNotYet
  cases h : lookupC cb.censuses id with
  | some q => exact Or.inl rfl
  | none =>
    by_cases ho : ext.openOk id = true
    · right
      exact ⟨rfl, by simp [ho]⟩
    · left
      simp [ho]

theorem lookupC_load_mono (ext : CensusExt) (id id' p : Nat) (cb : CensusBuilder)
    (h : lookupC cb.censuses id' = some p) :
    lookupC ((loadCensusIfNotYet ext id cb).2).censuses id' = some p := by
  rcases load_censuses ext id cb with hc | ⟨hn, hc⟩
  · rw [hc]; exact h
  · rw [hc]
    have hne : id ≠ id' := by
      intro he
      rw [he, h] at hn
      exact Option.noConfusion hn
    simp only [lookupC, if_neg hne]
    exact h

theorem load_keys_nodup (ext : CensusExt) (id : Nat) (cb : CensusBuilder)
    (h : (cb.censuses.map Prod.fst).Nodup) :
    (((loadCensusIfNotYet ext id cb).2).censuses.map Prod.fst).Nodup := by
  rcases load_censuses ext id cb with hc | ⟨hn, hc⟩
  · rw [hc]; exact h
  · rw [hc]
    simp only [List.map_cons]
    exact List.nodup_cons.mpr ⟨lookupC_none_not_mem _ _ hn, h⟩

theorem CloseCensus_censuses (ext : CensusExt) (id : Nat) (cb : CensusBuilder) :
    ((CloseCensus ext id cb).2).censuses = ((loadCensusIfNotYet ext id cb).2).censuses := by
  unfold CloseCensus
  cases hL : loadCensusIfNotYet ext id cb with
  | mk r cb1 =>
    cases r with
    | ok a =>
      cases hLk : lookupC cb1.censuses id with
      | none => simp [hLk]
      | some ptr =>
        cases hC : ext.closeRes id with
        | none => simp [hLk, hC]
        | some msg => simp [hLk, hC]
    | err e => rfl
    | panicked => rfl

theorem CensusRoot_censuses (ext : CensusExt) (id : Nat) (cb : CensusBuilder) :
    ((CensusRoot ext id cb).2).censuses = ((loadCensusIfNotYet ext id cb).2).censuses := by
  unfold CensusRoot
  cases hL : loadCensusIfNotYet ext id cb with
  | mk r cb1 =>
    cases r with
    | ok a =>
      cases hLk : lookupC cb1.censuses id with
      | none => simp [hLk]
      | some ptr =>
        cases hC : ext.rootRes id with
        | ok root => simp [hLk, hC]
        | error msg => simp [hLk, hC]
    | err e => rfl
    | panicked => rfl

theorem SetStatus_censuses (ext : CensusExt) (id : Nat) (st : String) (cb : CensusBuilder) :
    ((SetStatus ext id st cb).2).censuses = ((loadCensusIfNotYet ext id cb).2).censuses := by
  unfold SetStatus
  cases hL : loadCensusIfNotYet ext id cb with
  | mk r cb1 =>
    cases r with
    | ok a =>
      cases hLk : lookupC cb1.censuses id with
      | none => simp [hLk]
      | some ptr =>
        cases hC : ext.setStatusRes id st with
        | none => simp [hLk, hC]
        | some msg => simp [hLk, hC]
    | err e => rfl
    | panicked => rfl

theorem AddPublicKeys_censuses (ext : CensusExt) (id : Nat) (ks : List PubKey)
    (cb : CensusBuilder) :
    ((AddPublicKeys ext id ks cb).2).censuses = ((loadCensusIfNotYet ext id cb).2).censuses := by
  unfold AddPublicKeys
  cases hL : loadCensusIfNotYet ext id cb with
  | mk r cb1 =>
    cases r with
    | ok a =>
      cases hLk : lookupC cb1.censuses id with
      | none => simp [hLk]
      | some ptr =>
        cases hO : ext.addPubKeysRes id ks with
        | mk invalids errOpt =>
          cases errOpt with
          | some msg => simp [hLk, hO]
          | none => cases invalids with
            | nil => simp [hLk, hO]
            | cons inv invs => simp [hLk, hO]
    | err e => rfl
    | panicked => rfl

theorem NewCensus_censuses (ext : CensusExt) (cb : CensusBuilder) :
    ((NewCensus ext cb).2).censuses = cb.censuses ∨
    ∃ i, ((NewCensus ext cb).2).censuses = ((loadCensusIfNotYet ext i cb).2).censuses := by
  unfold NewCensus
  cases hg : getNextCensusID cb.db with
  | ok v =>
    dsimp only
    cases hL : loadCensusIfNotYet ext v cb with
    | mk r cb1 =>
      cases r with
      | ok a => exact Or.inr ⟨v, by simp [hL]⟩
      | err e => exact Or.inr ⟨v, by simp [hL]⟩
      | panicked => exact Or.inr ⟨v, by simp [hL]⟩
  | err e => exact Or.inl rfl
  | panicked => exact Or.inl rfl

theorem stepOp_lookup_mono (ext : CensusExt) (op : Op) (cb : CensusBuilder) (id p : Nat)
    (h : lookupC cb.censuses id = some p) :
    lookupC ((stepOp ext op cb).censuses) id = some p := by
  cases op with
  | newCensus =>
    rcases NewCensus_censuses ext cb with hc | ⟨i, hc⟩
    · simp only [stepOp]
      rw [hc]
      exact h
    · simp only [stepOp]
      rw [hc]
      exact lookupC_load_mono ext i id p cb h
  | closeCensus i =>
    simp only [stepOp]
    rw [CloseCensus_censuses]
    exact lookupC_load_mono ext i id p cb h
  | censusRoot i =>
    simp only [stepOp]
    rw [CensusRoot_censuses]
    exact lookupC_load_mono ext i id p cb h
  | addPublicKeys i ks =>
    simp only [stepOp]
    rw [AddPublicKeys_censuses]
    exact lookupC_load_mono ext i id p cb h
  | setStatus i st =>
    simp only [stepOp]
    rw [SetStatus_censuses]
    exact lookupC_load_mono ext i id p cb h

theorem stepOp_keys_nodup (ext : CensusExt) (op : Op) (cb : CensusBuilder)
    (h : (cb.censuses.map Prod.fst).Nodup) :
    (((stepOp ext op cb).censuses).map Prod.fst).Nodup := by
  cases op with
  | newCensus =>
    rcases NewCensus_censuses ext cb with hc | ⟨i, hc⟩
    · simp only [stepOp]
      rw [hc]
      exact h
    · simp only [stepOp]
      rw [hc]
      exact load_keys_nodup ext i cb h
  | closeCensus i =>
    simp only [stepOp]
    rw [CloseCensus_censuses]
    exact load_keys_nodup ext i cb h
  | censusRoot i =>
    simp only [stepOp]
    rw [CensusRoot_censuses]
    exact load_keys_nodup ext i cb h
  | addPublicKeys i ks =>
    simp only [stepOp]
    rw [AddPublicKeys_censuses]
    exact load_keys_nodup ext i cb h
  | setStatus i st =>
    simp only [stepOp]
    rw [SetStatus_censuses]
    exact load_keys_nodup ext i cb h

theorem runOps_lookup_mono (ext : CensusExt) (ops : List Op) : ∀ (cb : CensusBuilder)
    (id p : Nat), lookupC cb.censuses id = some p →
    lookupC ((runOps ext ops cb).censuses) id = some p := by
  induction ops with
  | nil => intro cb id p h; exact h
  | cons op t ih =>
    intro cb id p h
    simp only [runOps, List.foldl_cons]
    exact ih (stepOp ext op cb) id p (stepOp_lookup_mono ext op cb id p h)

theorem runOps_keys_nodup (ext : CensusExt) (ops : List Op) : ∀ (cb : CensusBuilder),
    (cb.censuses.map Prod.fst).Nodup →
    (((runOps ext ops cb).censuses).map Prod.fst).Nodup := by
  induction ops with
  | nil => intro cb h; exact h
  | cons op t ih =>
    intro cb h
    simp only [runOps, List.foldl_cons]
    exact ih (stepOp ext op cb) (stepOp_keys_nodup ext op cb h)

theorem load_cached_eq (ext : CensusExt) (id : Nat) (cb : CensusBuilder)
    (h : (lookupC cb.censuses id).isSome = true) :
    loadCensusIfNotYet ext id cb = (.ok (), cb) := by
  unfold loadCensusIfNotYet
  cases hl : lookupC cb.censuses id with
  | some q => rfl
  | none => rw [hl] at h; simp at h

/-- C2: in one process, the registry map keeps at most one live handle
per censusID: along any sequence of lifecycle operations an entry, once
cached, is never removed or replaced (every later operation resolves it
to the same pointer), the map keys stay duplicate-free, and a load of an
already-cached identifier performs no storage open and returns the state
completely unchanged. -/
theorem claim2_registry_single_handle (ext : CensusExt) (ops : List Op) (cb : CensusBuilder)
    (id p : Nat) (ext2 : CensusExt) (cb2 : CensusBuilder) (id2 : Nat)
    (h : lookupC cb.censuses id = some p)
    (hnd : (cb.censuses.map Prod.fst).Nodup)
    (h2 : (lookupC cb2.censuses id2).isSome = true) :
    lookupC ((runOps ext ops cb).censuses) id = some p ∧
    (((runOps ext ops cb).censuses).map Prod.fst).Nodup ∧
    loadCensusIfNotYet ext2 id2 cb2 = (.ok (), cb2) :=
  ⟨runOps_lookup_mono ext ops cb id p h, runOps_keys_nodup ext ops cb hnd,
    load_cached_eq ext2 id2 cb2 h2⟩

/-- C2 witness: census 7 cached with pointer 0 survives a SetStatus
operation unchanged, and loading it again is the identity. -/
theorem claim2_registry_single_handle_witness :
    (lookupC cbW.censuses 7 = some 0 ∧ (cbW.censuses.map Prod.fst).Nodup ∧
      (lookupC cbW.censuses 7).isSome = true) ∧
    (lookupC ((runOps extAllOk [Op.setStatus 7 stW] cbW).censuses) 7 = some 0 ∧
      (((runOps extAllOk [Op.setStatus 7 stW] cbW).censuses).map Prod.fst).Nodup ∧
      loadCensusIfNotYet extAllOk 7 cbW = (.ok (), cbW)) :=
  ⟨⟨by decide, by decide, by decide⟩,
    claim2_registry_single_handle extAllOk [Op.setStatus 7 stW] cbW 7 0 extAllOk cbW 7
      (by decide) (by decide) (by decide)⟩

theorem load_ok_lookup (ext : CensusExt) (id : Nat) (cb : CensusBuilder)
    (h : (loadCensusIfNotYet ext id cb).1 = .ok ()) :
    ∃ p, lookupC ((loadCensusIfNotYet ext id cb).2).censuses id = some p := by
  unfold loadCensusIfNotYet at h ⊢
  cases hl : lookupC cb.censuses id with
  | some q => exact ⟨q, by simp [hl]⟩
  | none =>
    simp only [hl] at h ⊢
    by_cases ho : ext.openOk id = true
    · exact ⟨cb.heap.length, by simp [ho, lookupC]⟩
    · rw [if_neg ho] at h
      exact absurd h (by simp)

theorem load_not_panicked (ext : CensusExt) (id : Nat) (cb : CensusBuilder) :
    (loadCensusIfNotYet ext id cb).1 ≠ .panicked := by
  unfold loadCensusIfNotYet
  cases hl : lookupC cb.censuses id with
  | some q => simp [hl]
  | none =>
    by_cases ho : ext.openOk id = true <;> simp [hl, ho]

/-- C5: when the identity set reports a non-empty reject list (and no
call error), AddPublicKeys fails with the batch error carrying the total
reject count and the first reject's index and reason; when it reports no
rejects and no error, AddPublicKeys succeeds. -/
theorem claim5_batch_reporting (ext : CensusExt) (censusID : Nat) (ks : List PubKey)
    (cb : CensusBuilder) (inv : Invalid) (invs : List Invalid)
    (hload : (loadCensusIfNotYet ext censusID cb).1 = .ok ()) :
    (ext.addPubKeysRes censusID ks = (inv :: invs, none) →
      (AddPublicKeys ext censusID ks cb).1 =
        .err (.batchInvalid (inv :: invs).length inv.Index inv.Error)) ∧
    (ext.addPubKeysRes censusID ks = ([], none) →
      (AddPublicKeys ext censusID ks cb).1 = .ok ()) := by
  obtain ⟨p, hp⟩ := load_ok_lookup ext censusID cb hload
  cases hL : loadCensusIfNotYet ext censusID cb with
  | mk r cb1 =>
    rw [hL] at hload hp
    dsimp only at hload hp
    subst hload
    constructor
    · intro hO
      simp [AddPublicKeys, hL, hp, hO]
    · intro hO
      simp [AddPublicKeys, hL, hp, hO]

/-- C5 witness: a batch whose identity-set response rejects one key at
batch position 2. -/
theorem claim5_batch_reporting_witness :
    ((loadCensusIfNotYet extRej 7 cbW).1 = .ok () ∧
      extRej.addPubKeysRes 7 ksW = ([⟨2, badMsg⟩], none)) ∧
    (AddPublicKeys extRej 7 ksW cbW).1 = .err (.batchInvalid 1 2 badMsg) :=
  ⟨⟨by decide, by decide⟩,
    (claim5_batch_reporting extRej 7 ksW cbW ⟨2, badMsg⟩ [] (by decide)).1 (by decide)⟩

theorem AddPublicKeys_not_panicked (ext : CensusExt) (id : Nat) (ks : List PubKey)
    (cb : CensusBuilder) : (AddPublicKeys ext id ks cb).1 ≠ .panicked := by
  unfold AddPublicKeys
  cases hL : loadCensusIfNotYet ext id cb with
  | mk r cb1 =>
    cases r with
    | ok a =>
      obtain ⟨p, hp⟩ := load_ok_lookup ext id cb (by rw [hL])
      rw [hL] at hp
      dsimp only at hp
      simp only [hp]
      cases hO : ext.addPubKeysRes id ks with
      | mk invalids errOpt =>
        cases errOpt with
        | some msg => simp
        | none => cases invalids <;> simp
    | err e => simp
    | panicked =>
      exfalso
      have hnp := load_not_panicked ext id cb
      rw [hL] at hnp
      exact hnp rfl

theorem SetStatus_not_panicked (ext : CensusExt) (id : Nat) (st : String)
    (cb : CensusBuilder) : (SetStatus ext id st cb).1 ≠ .panicked := by
  unfold SetStatus
  cases hL : loadCensusIfNotYet ext id cb with
  | mk r cb1 =>
    cases r with
    | ok a =>
      obtain ⟨p, hp⟩ := load_ok_lookup ext id cb (by rw [hL])
      rw [hL] at hp
      dsimp only at hp
      simp only [hp]
      cases hs : ext.setStatusRes id st with
      | some msg => simp
      | none => simp
    | err e => simp
    | panicked =>
      exfalso
      have hnp := load_not_panicked ext id cb
      rw [hL] at hnp
      exact hnp rfl

theorem SetStatus_cached (ext : CensusExt) (id : Nat) (st : String) (cb : CensusBuilder)
    (p : Nat) (hp : lookupC cb.censuses id = some p)
    (hs : ext.setStatusRes id st = none) :
    SetStatus ext id st cb =
      (.ok (), { cb with heap := heapUpdate cb.heap p fun c => { c with status := some st } }) := by
  have hcache := load_cached_eq ext id cb (by rw [hp]; rfl)
  unfold SetStatus
  rw [hcache]
  simp [hp, hs]

theorem lookupC_heapUpdate (heap : List (Nat × CensusH)) (ptr : Nat) (f : CensusH → CensusH)
    (c : CensusH) (h : lookupC heap ptr = some c) :
    lookupC (heapUpdate heap ptr f) ptr = some (f c) := by
  induction heap with
  | nil => simp [lookupC] at h
  | cons q t ih =>
    obtain ⟨k, v⟩ := q
    simp only [heapUpdate, List.map_cons]
    by_cases hk : k = ptr
    · subst hk
      simp [lookupC] at h
      subst h
      rw [if_pos rfl]
      simp [lookupC]
    · simp only [lookupC, if_neg hk] at h
      rw [if_neg hk]
      simp only [lookupC, if_neg hk]
      simp only [heapUpdate] at ih
      exact ih h

/-- C6: AddPublicKeysAndStoreError never propagates an error to its
caller (for every oracle, batch and state it returns normally); when the
underlying AddPublicKeys call fails and the status write succeeds, the
failure's error message becomes the census's stored status; a failing
status write is only logged, which the first conjunct already covers
(the call still returns normally). -/
theorem claim6_async_error_capture (ext : CensusExt) (censusID : Nat) (ks : List PubKey)
    (cb cb1 : CensusBuilder) (e : GoErr) (p : Nat) (ch : CensusH)
    (hA : AddPublicKeys ext censusID ks cb = (.err e, cb1))
    (hp : lookupC cb1.censuses censusID = some p)
    (hch : lookupC cb1.heap p = some ch)
    (hs : ext.setStatusRes censusID (errString e) = none) :
    (∀ (ext2 : CensusExt) (id2 : Nat) (ks2 : List PubKey) (cb2 : CensusBuilder),
      (AddPublicKeysAndStoreError ext2 id2 ks2 cb2).1 = .ok ()) ∧
    statusOf (AddPublicKeysAndStoreError ext censusID ks cb).2 censusID =
      some (errString e) := by
  constructor
  · intro ext2 id2 ks2 cb2
    unfold AddPublicKeysAndStoreError
    cases hA2 : AddPublicKeys ext2 id2 ks2 cb2 with
    | mk r cb1x =>
      cases r with
      | ok a => rfl
      | panicked =>
        exfalso
        have hnp := AddPublicKeys_not_panicked ext2 id2 ks2 cb2
        rw [hA2] at hnp
        exact hnp rfl
      | err e2 =>
        dsimp only
        cases hS : SetStatus ext2 id2 (errString e2) cb1x with
        | mk r2 cb2x =>
          cases r2 with
          | ok a => rfl
          | err e3 => rfl
          | panicked =>
            exfalso
            have hnp := SetStatus_not_panicked ext2 id2 (errString e2) cb1x
            rw [hS] at hnp
            exact hnp rfl
  · have hSS := SetStatus_cached ext censusID (errString e) cb1 p hp hs
    unfold AddPublicKeysAndStoreError
    simp only [hA, hSS]
    have hhu := lookupC_heapUpdate cb1.heap p (fun c => { c with status := some (errString e) })
      ch hch
    simp [statusOf, hp, hhu]

/-- C6 witness: a failing batch on a loaded census; afterwards the stored
status is the batch error message and the call returned normally. -/
theorem claim6_async_error_capture_witness :
    (AddPublicKeys extRej 7 ksW cbW = (.err (.batchInvalid 1 2 badMsg), cbW) ∧
      extRej.setStatusRes 7 (errString (.batchInvalid 1 2 badMsg)) = none) ∧
    ((AddPublicKeysAndStoreError extRej 7 ksW cbW).1 = .ok () ∧
      statusOf (AddPublicKeysAndStoreError extRej 7 ksW cbW).2 7 =
        some (errString (.batchInvalid 1 2 badMsg))) :=
  ⟨⟨by decide, by decide⟩,
    ⟨(claim6_async_error_capture extRej 7 ksW cbW cbW (.batchInvalid 1 2 badMsg) 0
        ⟨none, false⟩ (by decide) (by decide) (by decide) (by decide)).1 extRej 7 ksW cbW,
      (claim6_async_error_capture extRej 7 ksW cbW cbW (.batchInvalid 1 2 badMsg) 0
        ⟨none, false⟩ (by decide) (by decide) (by decide) (by decide)).2⟩⟩

/-- C10 (code bug): CensusInfo is a stub.  On a census whose stored
status is boomStr it returns the fixed WIP placeholder naming only the
censusID and mutates nothing; the identical output is produced when the
stored status differs, so the returned summary reflects neither the
stored status nor any other census state, contradicting the claimed
summary content (the never-mutates part does hold). -/
theorem claim10_census_info_stub :
    (CensusInfo 0 cbBoom).1 =
      .ok ("WIP, this will return info about CensusID: " ++ Nat.repr 0) ∧
    (CensusInfo 0 cbBoom).2 = cbBoom ∧
    statusOf cbBoom 0 = some boomStr ∧
    statusOf cbOther 0 = some otherStr ∧
    boomStr ≠ otherStr ∧
    (CensusInfo 0 cbBoom).1 = (CensusInfo 0 cbOther).1 :=
  ⟨rfl, rfl, by decide, by decide, by decide, rfl⟩

theorem goCopySig_len (l : List Nat) (h : l.length = 64) : goCopySig l = l := by
  have ht : l.take 64 = l := by
    rw [← h]
    exact List.take_length l
  simp [goCopySig, h, ht]

/-- C3: starting from the migrated (empty) ledger, a first vote package
stores successfully (at any insert timestamp); a second package repeating
the first's index, or publicKey, or merkleproof fails with the constraint
error, the failed append leaves the ledger state intact, and the first
record is still returned unchanged by ReadVotePackagesByCensusRoot. -/
theorem claim3_ledger_uniqueness (root1 root2 : List Nat) (v1 v2 : VotePackage)
    (t1 t2 : Nat) (hsig : v1.Signature.length = 64)
    (hdup : v2.censusProof.Index = v1.censusProof.Index ∨
      v2.censusProof.PublicKey = v1.censusProof.PublicKey ∨
      v2.censusProof.MerkleProof = v1.censusProof.MerkleProof) :
    (StoreVotePackage root1 v1 t1 migratedDB).1 = .ok () ∧
    (StoreVotePackage root2 v2 t2 (StoreVotePackage root1 v1 t1 migratedDB).2).1 =
      .err .constraint ∧
    (StoreVotePackage root2 v2 t2 (StoreVotePackage root1 v1 t1 migratedDB).2).2 =
      (StoreVotePackage root1 v1 t1 migratedDB).2 ∧
    ReadVotePackagesByCensusRoot root1
      (StoreVotePackage root2 v2 t2 (StoreVotePackage root1 v1 t1 migratedDB).2).2 =
      [v1] := by
  have hst1 : StoreVotePackage root1 v1 t1 migratedDB =
      (.ok (), ⟨[⟨root1, v1.Signature, v1.censusProof.Index, v1.censusProof.PublicKey,
        v1.censusProof.MerkleProof, v1.Vote, t1⟩]⟩) := by
    simp [StoreVotePackage, violatesUnique, migratedDB]
  have hv2 : violatesUnique ⟨[⟨root1, v1.Signature, v1.censusProof.Index,
      v1.censusProof.PublicKey, v1.censusProof.MerkleProof, v1.Vote, t1⟩]⟩ v2 = true := by
    rcases hdup with h | h | h <;> simp [violatesUnique, h]
  have hst2 : StoreVotePackage root2 v2 t2 (⟨[⟨root1, v1.Signature, v1.censusProof.Index,
      v1.censusProof.PublicKey, v1.censusProof.MerkleProof, v1.Vote, t1⟩]⟩ : SQLite) =
      (.err .constraint, ⟨[⟨root1, v1.Signature, v1.censusProof.Index,
        v1.censusProof.PublicKey, v1.censusProof.MerkleProof, v1.Vote, t1⟩]⟩) := by
    simp [StoreVotePackage, hv2]
  have hread : ReadVotePackagesByCensusRoot root1
      (⟨[⟨root1, v1.Signature, v1.censusProof.Index, v1.censusProof.PublicKey,
        v1.censusProof.MerkleProof, v1.Vote, t1⟩]⟩ : SQLite) = [v1] := by
    simp [ReadVotePackagesByCensusRoot, readRowsByCensusRoot, List.insertionSort,
      rowToVotePackage, goCopySig_len _ hsig]
  refine ⟨?_, ?_, ?_, ?_⟩
  · rw [hst1]
  · simp only [hst1, hst2]
  · simp only [hst1, hst2]
  · simp only [hst1, hst2]
    exact hread

/-- C3 witness: vpDup repeats vp1's index. -/
theorem claim3_ledger_uniqueness_witness :
    (vp1.Signature.length = 64 ∧ vpDup.censusProof.Index = vp1.censusProof.Index) ∧
    ((StoreVotePackage rootW vp1 0 migratedDB).1 = .ok () ∧
      (StoreVotePackage rootW vpDup 1 (StoreVotePackage rootW vp1 0 migratedDB).2).1 =
        .err .constraint ∧
      (StoreVotePackage rootW vpDup 1 (StoreVotePackage rootW vp1 0 migratedDB).2).2 =
        (StoreVotePackage rootW vp1 0 migratedDB).2 ∧
      ReadVotePackagesByCensusRoot rootW
        (StoreVotePackage rootW vpDup 1 (StoreVotePackage rootW vp1 0 migratedDB).2).2 =
        [vp1]) :=
  ⟨⟨by decide, by decide⟩,
    claim3_ledger_uniqueness rootW rootW vp1 vpDup 0 1 (by decide) (by decide)⟩

/-- C4 (amended): ReadVotePackagesByCensusRoot maps exactly the SELECTed
rows (the rows whose censusRoot matches, nothing else, as a permutation
of the filter), ordered by insertion timestamp descending; and three
packages stored in order under one root with strictly increasing
timestamps (distinct seconds) read back most recent first.  (Inserts
within the same second receive equal CURRENT_TIMESTAMP values, whose
tie the descending ORDER BY does not break towards [S3, S2, S1]; see the
counterexample.) -/
theorem claim4_retrieval_ordering (root : List Nat) (s : SQLite) (v1 v2 v3 : VotePackage)
    (t1 t2 t3 : Nat) (ht12 : t1 < t2) (ht23 : t2 < t3)
    (hs1 : v1.Signature.length = 64) (hs2 : v2.Signature.length = 64)
    (hs3 : v3.Signature.length = 64)
    (hi21 : v2.censusProof.Index ≠ v1.censusProof.Index)
    (hp21 : v2.censusProof.PublicKey ≠ v1.censusProof.PublicKey)
    (hm21 : v2.censusProof.MerkleProof ≠ v1.censusProof.MerkleProof)
    (hi31 : v3.censusProof.Index ≠ v1.censusProof.Index)
    (hp31 : v3.censusProof.PublicKey ≠ v1.censusProof.PublicKey)
    (hm31 : v3.censusProof.MerkleProof ≠ v1.censusProof.MerkleProof)
    (hi32 : v3.censusProof.Index ≠ v2.censusProof.Index)
    (hp32 : v3.censusProof.PublicKey ≠ v2.censusProof.PublicKey)
    (hm32 : v3.censusProof.MerkleProof ≠ v2.censusProof.MerkleProof) :
    ReadVotePackagesByCensusRoot root s = (readRowsByCensusRoot root s).map rowToVotePackage ∧
    (readRowsByCensusRoot root s).Perm (s.rows.filter fun r => r.censusRoot = root) ∧
    List.Sorted timeDesc (readRowsByCensusRoot root s) ∧
    ReadVotePackagesByCensusRoot root
      (StoreVotePackage root v3 t3 (StoreVotePackage root v2 t2
        (StoreVotePackage root v1 t1 migratedDB).2).2).2 = [v3, v2, v1] := by
  refine ⟨rfl, List.perm_insertionSort timeDesc _, List.sorted_insertionSort timeDesc _, ?_⟩
  have hst1 : StoreVotePackage root v1 t1 migratedDB =
      (.ok (), ⟨[⟨root, v1.Signature, v1.censusProof.Index, v1.censusProof.PublicKey,
        v1.censusProof.MerkleProof, v1.Vote, t1⟩]⟩) := by
    simp [StoreVotePackage, violatesUnique, migratedDB]
  have hst2 : StoreVotePackage root v2 t2 (⟨[⟨root, v1.Signature, v1.censusProof.Index,
      v1.censusProof.PublicKey, v1.censusProof.MerkleProof, v1.Vote, t1⟩]⟩ : SQLite) =
      (.ok (), ⟨[⟨root, v1.Signature, v1.censusProof.Index, v1.censusProof.PublicKey,
          v1.censusProof.MerkleProof, v1.Vote, t1⟩,
        ⟨root, v2.Signature, v2.censusProof.Index, v2.censusProof.PublicKey,
          v2.censusProof.MerkleProof, v2.Vote, t2⟩]⟩) := by
    have h : violatesUnique ⟨[⟨root, v1.Signature, v1.censusProof.Index,
        v1.censusProof.PublicKey, v1.censusProof.MerkleProof, v1.Vote, t1⟩]⟩ v2 = false := by
      simp [violatesUnique, Ne.symm hi21, Ne.symm hp21, Ne.symm hm21]
    simp [StoreVotePackage, h]
  have hst3 : StoreVotePackage root v3 t3 (⟨[⟨root, v1.Signature, v1.censusProof.Index,
      v1.censusProof.PublicKey, v1.censusProof.MerkleProof, v1.Vote, t1⟩,
      ⟨root, v2.Signature, v2.censusProof.Index, v2.censusProof.PublicKey,
        v2.censusProof.MerkleProof, v2.Vote, t2⟩]⟩ : SQLite) =
      (.ok (), ⟨[⟨root, v1.Signature, v1.censusProof.Index, v1.censusProof.PublicKey,
          v1.censusProof.MerkleProof, v1.Vote, t1⟩,
        ⟨root, v2.Signature, v2.censusProof.Index, v2.censusProof.PublicKey,
          v2.censusProof.MerkleProof, v2.Vote, t2⟩,
        ⟨root, v3.Signature, v3.censusProof.Index, v3.censusProof.PublicKey,
          v3.censusProof.MerkleProof, v3.Vote, t3⟩]⟩) := by
    have h : violatesUnique ⟨[⟨root, v1.Signature, v1.censusProof.Index,
        v1.censusProof.PublicKey, v1.censusProof.MerkleProof, v1.Vote, t1⟩,
        ⟨root, v2.Signature, v2.censusProof.Index, v2.censusProof.PublicKey,
          v2.censusProof.MerkleProof, v2.Vote, t2⟩]⟩ v3 = false := by
      simp [violatesUnique, Ne.symm hi31, Ne.symm hp31, Ne.symm hm31,
        Ne.symm hi32, Ne.symm hp32, Ne.symm hm32]
    simp [StoreVotePackage, h]
  have hn12 : ¬(t2 ≤ t1) := by omega
  have hn13 : ¬(t3 ≤ t1) := by omega
  have hn23 : ¬(t3 ≤ t2) := by omega
  simp only [hst1, hst2, hst3]
  simp [ReadVotePackagesByCensusRoot, readRowsByCensusRoot, List.insertionSort,
    List.orderedInsert, timeDesc, rowToVotePackage, hn12, hn13, hn23,
    goCopySig_len _ hs1, goCopySig_len _ hs2, goCopySig_len _ hs3]

/-- C4 counterexample: three packages inserted in order within one second
all carry the same CURRENT_TIMESTAMP value (one-second resolution), so
ORDER BY the tied timestamp does not determine the claimed order; the
scan-order execution returns [S1, S2, S3], not [S3, S2, S1], refuting
the claim's unconditional "in particular" instance. -/
theorem claim4_cex :
    ReadVotePackagesByCensusRoot rootW
      (StoreVotePackage rootW vp3 0 (StoreVotePackage rootW vp2 0
        (StoreVotePackage rootW vp1 0 migratedDB).2).2).2 = [vp1, vp2, vp3] ∧
    ([vp1, vp2, vp3] : List VotePackage) ≠ [vp3, vp2, vp1] :=
  ⟨by decide, by decide⟩

/-- C4 witness: three concrete packages stored in order under one root at
timestamps 0, 1, 2. -/
theorem claim4_retrieval_ordering_witness :
    ((0 : Nat) < 1 ∧ (1 : Nat) < 2 ∧ vp1.Signature.length = 64 ∧
      vp2.censusProof.Index ≠ vp1.censusProof.Index ∧
      vp3.censusProof.Index ≠ vp2.censusProof.Index) ∧
    (ReadVotePackagesByCensusRoot rootW migratedDB =
        (readRowsByCensusRoot rootW migratedDB).map rowToVotePackage ∧
      (readRowsByCensusRoot rootW migratedDB).Perm
        (migratedDB.rows.filter fun r => r.censusRoot = rootW) ∧
      List.Sorted timeDesc (readRowsByCensusRoot rootW migratedDB) ∧
      ReadVotePackagesByCensusRoot rootW
        (StoreVotePackage rootW vp3 2 (StoreVotePackage rootW vp2 1
          (StoreVotePackage rootW vp1 0 migratedDB).2).2).2 = [vp3, vp2, vp1]) :=
  ⟨⟨by decide, by decide, by decide, by decide, by decide⟩,
    claim4_retrieval_ordering rootW migratedDB vp1 vp2 vp3 0 1 2 (by decide) (by decide)
      (by decide) (by decide) (by decide) (by decide) (by decide) (by decide) (by decide)
      (by decide) (by decide) (by decide) (by decide) (by decide)⟩

theorem natDigitsAux_foldl (fuel : Nat) : ∀ (n a : Nat), n < fuel →
    (natDigitsAux fuel n).foldl (fun acc c => acc * 10 + (c.toNat - 48)) a =
      a * 10 ^ (natDigitsAux fuel n).length + n := by
  induction fuel with
  | zero => intro n a h; exact absurd h (by omega)
  | succ f ih =>
    intro n a h
    by_cases h10 : n < 10
    · simp only [natDigitsAux, if_pos h10, List.foldl_cons, List.foldl_nil,
        List.length_cons, List.length_nil]
      have hd : (Nat.digitChar n).toNat - 48 = n := by
        interval_cases n <;> decide
      rw [hd, pow_one]
    · have hlt : n / 10 < n := Nat.div_lt_self (by omega) (by omega)
      have hrec : n / 10 < f := by omega
      simp only [natDigitsAux, if_neg h10, List.foldl_append, List.length_append,
        List.foldl_cons, List.foldl_nil, List.length_cons, List.length_nil]
      rw [ih (n / 10) a hrec]
      have hd : (Nat.digitChar (n % 10)).toNat - 48 = n % 10 := by
        have hm : n % 10 < 10 := Nat.mod_lt _ (by omega)
        revert hm
        generalize n % 10 = m
        intro hm
        interval_cases m <;> decide
      rw [hd]
      have hr : (a * 10 ^ (natDigitsAux f (n / 10)).length + n / 10) * 10 + n % 10 =
          a * 10 ^ ((natDigitsAux f (n / 10)).length + (0 + 1)) + (n / 10 * 10 + n % 10) := by
        ring
      rw [hr]
      omega

theorem digitsVal_natDigits (n : Nat) : digitsVal (natDigits n) = n := by
  have h := natDigitsAux_foldl (n + 1) n 0 (by omega)
  simpa [digitsVal, natDigits] using h

theorem natDigits_inj (m n : Nat) (h : natDigits m = natDigits n) : m = n := by
  have hm := digitsVal_natDigits m
  rw [h, digitsVal_natDigits] at hm
  omega

theorem natDigitsAux_mem_digit (fuel : Nat) : ∀ (n : Nat) (c : Char), n < fuel →
    c ∈ natDigitsAux fuel n → 48 ≤ c.toNat ∧ c.toNat ≤ 57 := by
  induction fuel with
  | zero => intro n c h hc; exact absurd h (by omega)
  | succ f ih =>
    intro n c h hc
    have hb : ∀ d, d < 10 → 48 ≤ (Nat.digitChar d).toNat ∧ (Nat.digitChar d).toNat ≤ 57 := by
      decide
    by_cases h10 : n < 10
    · simp only [natDigitsAux, if_pos h10, List.mem_singleton] at hc
      subst hc
      exact hb n h10
    · simp only [natDigitsAux, if_neg h10, List.mem_append, List.mem_singleton] at hc
      have hlt : n / 10 < n := Nat.div_lt_self (by omega) (by omega)
      have hrec : n / 10 < f := by omega
      rcases hc with hc | hc
      · exact ih (n / 10) c hrec hc
      · subst hc
        exact hb (n % 10) (Nat.mod_lt _ (by omega))

theorem natDigits_mem_digit (n : Nat) (c : Char) (h : c ∈ natDigits n) :
    48 ≤ c.toNat ∧ c.toNat ≤ 57 :=
  natDigitsAux_mem_digit (n + 1) n c (by omega) h

theorem goItoa_inj (i j : Int) (h : goItoa i = goItoa j) : i = j := by
  unfold goItoa at h
  have hminus : ('-' : Char).toNat = 45 := by decide
  by_cases hi : i < 0 <;> by_cases hj : j < 0
  · rw [if_pos hi, if_pos hj] at h
    have hl : '-' :: natDigits (-i).toNat = '-' :: natDigits (-j).toNat :=
      congrArg String.data h
    have hd := natDigits_inj _ _ (List.cons.inj hl).2
    omega
  · rw [if_pos hi, if_neg hj] at h
    exfalso
    have hl : '-' :: natDigits (-i).toNat = natDigits j.toNat := congrArg String.data h
    have hmem : ('-' : Char) ∈ natDigits j.toNat := by
      rw [← hl]
      exact List.mem_cons_self _ _
    have := natDigits_mem_digit _ _ hmem
    omega
  · rw [if_neg hi, if_pos hj] at h
    exfalso
    have hl : natDigits i.toNat = '-' :: natDigits (-j).toNat := congrArg String.data h
    have hmem : ('-' : Char) ∈ natDigits i.toNat := by
      rw [hl]
      exact List.mem_cons_self _ _
    have := natDigits_mem_digit _ _ hmem
    omega
  · rw [if_neg hi, if_neg hj] at h
    have hl : natDigits i.toNat = natDigits j.toNat := congrArg String.data h
    have hd := natDigits_inj _ _ hl
    omega

theorem i64OfUint64_inj (m n : Nat) (hm : m < 2 ^ 64) (hn : n < 2 ^ 64)
    (h : i64OfUint64 m = i64OfUint64 n) : m = n := by
  unfold i64OfUint64 at h
  by_cases h1 : m < 2 ^ 63 <;> by_cases h2 : n < 2 ^ 63 <;> simp only [h1, h2, if_true,
    if_false, if_pos, if_neg, not_false_iff] at h <;> omega

theorem censusPath_inj (sub : String) (m n : Nat) (hm : m < 2 ^ 64) (hn : n < 2 ^ 64)
    (h : censusPath sub m = censusPath sub n) : m = n := by
  unfold censusPath goPathJoin at h
  have hdata := congrArg String.data h
  rw [String.data_append, String.data_append, String.data_append, String.data_append]
    at hdata
  have hI : (goItoa (i64OfUint64 m)).data = (goItoa (i64OfUint64 n)).data :=
    List.append_cancel_left hdata
  exact i64OfUint64_inj m n hm hn (goItoa_inj _ _ (String.ext hI))

theorem load_opensLog_uncached (ext : CensusExt) (id : Nat) (cb : CensusBuilder)
    (hnc : lookupC cb.censuses id = none) (hok : ext.openOk id = true) :
    ((loadCensusIfNotYet ext id cb).2).opensLog =
      cb.opensLog ++ [censusPath cb.subDBsPath id] := by
  unfold loadCensusIfNotYet
  simp [hnc, hok]

/-- C8 (amended): the storage location opened by loadCensusIfNotYet is
the pure function censusPath of the tenant root directory and the
identifier; for identifiers below 2^63 it equals the root joined with the
decimal string of the unsigned identifier, distinct identifiers in the
64-bit range always map to distinct locations, and an uncached load opens
exactly that location.  (For identifiers at or above 2^63 the path uses
the decimal string of the negative two's-complement reinterpretation
produced by int(censusID); see the counterexample.) -/
theorem claim8_storage_path (sub : String) (id id2 : Nat) (ext : CensusExt)
    (cb : CensusBuilder) (hid : id < 2 ^ 64) (hid2 : id2 < 2 ^ 64) (hne : id ≠ id2)
    (hsub : cb.subDBsPath = sub) (hnc : lookupC cb.censuses id = none)
    (hok : ext.openOk id = true) :
    (id < 2 ^ 63 → censusPath sub id = specTenantPath sub id) ∧
    censusPath sub id ≠ censusPath sub id2 ∧
    ((loadCensusIfNotYet ext id cb).2).opensLog =
      cb.opensLog ++ [censusPath sub id] := by
  refine ⟨?_, ?_, ?_⟩
  · intro hlt
    unfold censusPath specTenantPath goItoa i64OfUint64
    rw [if_pos hlt, if_neg (show ¬((id : Int) < 0) by omega)]
    simp
  · exact fun h => hne (censusPath_inj sub id id2 hid hid2 h)
  · rw [← hsub]
    exact load_opensLog_uncached ext id cb hnc hok

/-- C8 counterexample: at TenantID 2^63 the conversion int(censusID)
overflows to a negative value, so the opened location is the root joined
with "-9223372036854775808", not with the decimal string of the unsigned
identifier as the claim states for the full 64-bit range. -/
theorem claim8_cex : censusPath subP (2 ^ 63) ≠ specTenantPath subP (2 ^ 63) := by decide

/-- C8 witness: identifiers 0 and 1 on an empty registry. -/
theorem claim8_storage_path_witness :
    ((0 : Nat) < 2 ^ 63 ∧ (0 : Nat) ≠ 1 ∧ lookupC cbEmpty.censuses 0 = none) ∧
    (((0 : Nat) < 2 ^ 63 → censusPath subP 0 = specTenantPath subP 0) ∧
      censusPath subP 0 ≠ censusPath subP 1 ∧
      ((loadCensusIfNotYet extAllOk 0 cbEmpty).2).opensLog =
        cbEmpty.opensLog ++ [censusPath subP 0]) :=
  ⟨⟨by norm_num, by omega, by decide⟩,
    claim8_storage_path subP 0 1 extAllOk cbEmpty (by norm_num) (by norm_num) (by omega)
      (by decide) (by decide) (by decide)⟩
